import Mathlib

/-!
Verification of the streaming conversation orchestrator of the
`shop-chat-agent` repository.

The development shallowly embeds the three core components named by the
specification:

* the model gateway `streamConversation` (from the fallback-capable snapshot
  in `src/unnamed/part_000`, lines 101-191, which the spec's design notes
  identify as the contractually correct variant: on streaming failure the
  same turn is retried through the non-streaming completion call);
* the conversation orchestrator `handleChatSession` (from
  `src/app/routes/chat.jsx`, lines 90-181), modelled as a function from a
  session environment (scripted model responses, tool-gateway behaviour,
  discovery outcomes, initial database) to the list of actions the session
  performs, from which the wire-event trace is obtained by projection;
* the persistence layer (`db.server` is not part of the provided sources,
  so it is modelled from the spec as an append-only table of
  `(conversationId, role, content)` rows).

JavaScript's `JSON.parse` / `JSON.stringify` pair — load-bearing for the
message-content round-trip contract — is embedded as an executable
miniature JSON value type with a fuel-indexed recursive-descent reader
covering the object/array/string/integer/boolean/null fragment actually
produced and consumed by the code.
-/

namespace ShopChatAgent

/-- Miniature JavaScript/JSON value universe: the shapes `JSON.parse` can
return for the strings this system stores (strings, integers, booleans,
null, arrays, objects with string keys). -/
inductive Json where
  | jnull : Json
  | jbool : Bool → Json
  | jnum : Int → Json
  | jstr : String → Json
  | jarr : List Json → Json
  | jobj : List (String × Json) → Json

/-- Escape one character the way `JSON.stringify` renders it inside a
string literal (quote, backslash, and the common control characters). -/
def escapeChar (c : Char) : List Char :=
  if c = '"' then ['\\', '"']
  else if c = '\\' then ['\\', '\\']
  else if c = '\n' then ['\\', 'n']
  else if c = '\t' then ['\\', 't']
  else if c = '\r' then ['\\', 'r']
  else [c]

/-- Render a string as a JSON string literal, `JSON.stringify` style. -/
def stringifyStr (s : String) : List Char :=
  '"' :: (s.toList.flatMap escapeChar) ++ ['"']

mutual

/-- Serialise a JSON value to its character stream (`JSON.stringify`). -/
def stringifyChars : Json → List Char
  | .jnull => ['n', 'u', 'l', 'l']
  | .jbool true => ['t', 'r', 'u', 'e']
  | .jbool false => ['f', 'a', 'l', 's', 'e']
  | .jnum n => (toString n).toList
  | .jstr s => stringifyStr s
  | .jarr xs => '[' :: stringifyArr xs ++ [']']
  | .jobj fs => '{' :: stringifyObj fs ++ ['}']

/-- Serialise the comma-separated elements of a JSON array. -/
def stringifyArr : List Json → List Char
  | [] => []
  | [x] => stringifyChars x
  | x :: y :: rest => stringifyChars x ++ ',' :: stringifyArr (y :: rest)

/-- Serialise the comma-separated fields of a JSON object. -/
def stringifyObj : List (String × Json) → List Char
  | [] => []
  | [(k, v)] => stringifyStr k ++ ':' :: stringifyChars v
  | (k, v) :: f :: rest =>
      stringifyStr k ++ ':' :: stringifyChars v ++ ',' :: stringifyObj (f :: rest)

end

/-- The string `JSON.stringify` produces for a JSON value. -/
def stringify (j : Json) : String :=
  String.mk (stringifyChars j)

/-- Skip JSON whitespace characters. -/
def skipWs : List Char → List Char
  | c :: rest =>
      if c = ' ' ∨ c = '\n' ∨ c = '\t' ∨ c = '\r' then skipWs rest else c :: rest
  | [] => []

/-- Read the body of a JSON string literal (after the opening quote),
returning the decoded characters and the remainder after the closing
quote. Fuelled to keep the recursion structural. -/
def parseStrBody (fuel : Nat) : List Char → Option (List Char × List Char)
  | [] => none
  | c :: rest =>
    match fuel with
    | 0 => none
    | fuel + 1 =>
      if c = '"' then some ([], rest)
      else if c = '\\' then
        match rest with
        | [] => none
        | e :: rest' =>
          let dec : Option Char :=
            if e = '"' then some '"'
            else if e = '\\' then some '\\'
            else if e = '/' then some '/'
            else if e = 'n' then some '\n'
            else if e = 't' then some '\t'
            else if e = 'r' then some '\r'
            else none
          match dec with
          | none => none
          | some d =>
            match parseStrBody fuel rest' with
            | none => none
            | some (cs, rem) => some (d :: cs, rem)
      else
        match parseStrBody fuel rest with
        | none => none
        | some (cs, rem) => some (c :: cs, rem)

/-- Read a run of decimal digits, returning its value and the remainder;
fails when no digit is present. -/
def parseDigits (fuel : Nat) (acc : Nat) (seen : Bool) :
    List Char → Option (Nat × List Char)
  | [] => if seen then some (acc, []) else none
  | c :: rest =>
    match fuel with
    | 0 => none
    | fuel + 1 =>
      if c.isDigit then
        parseDigits fuel (acc * 10 + (c.toNat - '0'.toNat)) true rest
      else if seen then some (acc, c :: rest)
      else none

mutual

/-- Recursive-descent reader for one JSON value (`JSON.parse` core), over
the integer/string/boolean/null/array/object fragment. -/
def parseVal (fuel : Nat) (cs : List Char) : Option (Json × List Char) :=
  match fuel with
  | 0 => none
  | fuel + 1 =>
    match skipWs cs with
    | [] => none
    | c :: rest =>
      if c = '"' then
        match parseStrBody fuel rest with
        | none => none
        | some (body, rem) => some (.jstr (String.mk body), rem)
      else if c = '[' then
        match skipWs rest with
        | ']' :: rem => some (.jarr [], rem)
        | other => parseArrItems fuel other []
      else if c = '{' then
        match skipWs rest with
        | '}' :: rem => some (.jobj [], rem)
        | other => parseObjFields fuel other []
      else if c = 't' then
        match rest with
        | 'r' :: 'u' :: 'e' :: rem => some (.jbool true, rem)
        | _ => none
      else if c = 'f' then
        match rest with
        | 'a' :: 'l' :: 's' :: 'e' :: rem => some (.jbool false, rem)
        | _ => none
      else if c = 'n' then
        match rest with
        | 'u' :: 'l' :: 'l' :: rem => some (.jnull, rem)
        | _ => none
      else if c = '-' then
        match parseDigits fuel 0 false rest with
        | none => none
        | some (n, rem) => some (.jnum (-(n : Int)), rem)
      else if c.isDigit then
        match parseDigits fuel 0 false (c :: rest) with
        | none => none
        | some (n, rem) => some (.jnum (n : Int), rem)
      else none

/-- Read the elements of a non-empty JSON array, accumulating in reverse. -/
def parseArrItems (fuel : Nat) (cs : List Char) (acc : List Json) :
    Option (Json × List Char) :=
  match fuel with
  | 0 => none
  | fuel + 1 =>
    match parseVal fuel cs with
    | none => none
    | some (v, rem) =>
      match skipWs rem with
      | ',' :: rem' => parseArrItems fuel rem' (v :: acc)
      | ']' :: rem' => some (.jarr (acc.reverse ++ [v]), rem')
      | _ => none

/-- Read the fields of a non-empty JSON object, accumulating in reverse. -/
def parseObjFields (fuel : Nat) (cs : List Char) (acc : List (String × Json)) :
    Option (Json × List Char) :=
  match fuel with
  | 0 => none
  | fuel + 1 =>
    match skipWs cs with
    | '"' :: rest =>
      match parseStrBody fuel rest with
      | none => none
      | some (key, rem) =>
        match skipWs rem with
        | ':' :: rem' =>
          match parseVal fuel rem' with
          | none => none
          | some (v, rem'') =>
            match skipWs rem'' with
            | ',' :: rem''' => parseObjFields fuel rem''' ((String.mk key, v) :: acc)
            | '}' :: rem''' => some (.jobj ((acc.reverse) ++ [(String.mk key, v)]), rem''')
            | _ => none
        | _ => none
    | _ => none

end

/-- Embedding of `JSON.parse`: succeeds only when the whole input is one
JSON value (with surrounding whitespace), as the JavaScript function does. -/
def parseJson (s : String) : Option Json :=
  match parseVal (s.length * 2 + 2) s.toList with
  | none => none
  | some (v, rem) => if skipWs rem = [] then some v else none

/-! ## Messages and content blocks -/

/-- Content block of a model message: a text block or a tool-use request
(the two kinds the orchestrator inspects). The tool input object is kept
as an opaque string. -/
inductive ContentBlock where
  | text (text : String)
  | toolUse (id : String) (name : String) (input : String)
  deriving Repr, DecidableEq

/-- A model message: role, the provider's stop indicator (`stop_reason`,
absent on the synthetic initial value in `handleChatSession`), and the
list of content blocks. -/
structure ChatMessage where
  role : String
  stop_reason : Option String
  content : List ContentBlock
  deriving Repr, DecidableEq

/-- JSON encoding of one content block, as `JSON.stringify` sees it. -/
def blockToJson : ContentBlock → Json
  | .text t => .jobj [("type", .jstr "text"), ("text", .jstr t)]
  | .toolUse i n inp =>
      .jobj [("type", .jstr "tool_use"), ("id", .jstr i), ("name", .jstr n),
             ("input", .jstr inp)]

/-- The string the orchestrator stores for a completed message:
`JSON.stringify(message.content)` (chat.jsx line 133). -/
def serializeContent (bs : List ContentBlock) : String :=
  stringify (.jarr (bs.map blockToJson))

/-! ## Persistence gateway (modelled from the spec) -/

/-- One stored Message row: conversation id, role, and the content string. -/
structure DbRow where
  conversationId : String
  role : String
  content : String

/-- The durable message table, in insertion order. -/
abbrev Db := List DbRow

/-- Modelled from the spec: `saveMessage(conversationId, role, content)` of
the persistence gateway (`db.server`, not among the provided sources)
appends one Message row to the durable, append-only table. -/
def saveMessage (db : Db) (conversationId role content : String) : Db :=
  db ++ [⟨conversationId, role, content⟩]

/-- Modelled from the spec: `getConversationHistory(conversationId)` of the
persistence gateway returns the stored messages of one conversation in
insertion order. -/
def getConversationHistory (db : Db) (conversationId : String) : List DbRow :=
  db.filter (fun r => r.conversationId = conversationId)

/-- Content of an in-memory history entry: either a value loaded from
storage (`JSON.parse` result or raw-string fallback) or the structured
block list of a message appended during the session. -/
inductive HContent where
  | json (j : Json)
  | blocks (bs : List ContentBlock)

/-- One entry of the in-memory conversation history owned by the
orchestrator for the duration of a session. -/
structure HistoryEntry where
  role : String
  content : HContent

/-- Deserialisation of a stored content string (chat.jsx line 119):
`JSON.parse` with fallback to the raw string when parsing throws. -/
def deserializeContent (s : String) : Json :=
  match parseJson s with
  | some j => j
  | none => .jstr s

/-- Loading history (chat.jsx lines 116-121): each stored row becomes an
in-memory entry with its role and deserialised content. -/
def loadHistory (db : Db) (conversationId : String) : List HistoryEntry :=
  (getConversationHistory db conversationId).map
    (fun r => ⟨r.role, .json (deserializeContent r.content)⟩)

/-! ## Model gateway (`streamConversation`, src/unnamed/part_000 lines 101-191)

The provider SDK is abstracted exactly as the spec's §6 describes it: the
streaming variant delivers a sequence of incremental text deltas and a
final message, the non-streaming variant returns a final message. A turn's
transport behaviour is a `TurnOutcome`: the stream succeeded with given
deltas and final message, the stream failed and the non-streaming fallback
returned a message, or both calls failed. -/

/-- Tool descriptor offered to the model (name plus input schema). -/
structure Tool where
  name : String
  inputSchema : String
  deriving Repr, DecidableEq

/-- Parameters a completion call is made with: message history, resolved
system instruction, and the tool catalog (omitted when empty). -/
structure ModelParams where
  messages : List HistoryEntry
  system : String
  tools : Option (List Tool)

/-- One call to the model provider: streaming (`anthropic.messages.stream`)
or non-streaming (`anthropic.messages.create`). -/
inductive ApiCall where
  | streamCall (p : ModelParams)
  | createCall (p : ModelParams)

/-- Transport behaviour of one model turn (environment input). -/
inductive TurnOutcome where
  | streamed (deltas : List String) (msg : ChatMessage)
  | fellBack (msg : ChatMessage)
  | unavailable (streamErr : String) (fallbackErr : String)

/-- One invocation of a caller-supplied stream handler. -/
inductive HandlerCall where
  | onText (t : String)
  | onMessage (m : ChatMessage)
  | onToolUse (b : ContentBlock)
  | onContentBlock (b : ContentBlock)

/-- Whether a content block is a tool-use request. -/
def isToolUseBlock : ContentBlock → Bool
  | .toolUse .. => true
  | _ => false

/-- The tool-use blocks of a message, in the order they appear. -/
def toolUseBlocks (m : ChatMessage) : List ContentBlock :=
  m.content.filter isToolUseBlock

/-- The texts of the text blocks of a message, in order. -/
def textBlockTexts (m : ChatMessage) : List String :=
  m.content.filterMap (fun b => match b with | .text t => some t | _ => none)

/-- The `tools` request field: present only when the catalog is non-empty
(part_000 line 118: `tools && tools.length > 0 ? tools : undefined`). -/
def toolsParam (tools : List Tool) : Option (List Tool) :=
  if tools.length > 0 then some tools else none

/-- Handler invocations `streamConversation` performs for one turn
(part_000 lines 111-191). Streaming path: one `onText` per non-empty
`content_block_delta` text in arrival order (line 122-127), then
`onMessage` with the completed message (line 129-133), then one
`onToolUse` per tool-use block of the final message in block order
(lines 143-149). Fallback path: one `onText` per text block of the
response — per block, not per delta, and without the emptiness guard
(lines 167-173) — then `onMessage` once (lines 176-178), then one
`onToolUse` per tool-use block in order (lines 181-187). When both calls
fail the exception propagates before any handler runs. `onContentBlock`
is never invoked by this gateway variant. -/
def streamConversationCalls : TurnOutcome → List HandlerCall
  | .streamed deltas m =>
      (deltas.filter (fun d => d ≠ "")).map .onText
        ++ [.onMessage m] ++ (toolUseBlocks m).map .onToolUse
  | .fellBack m =>
      (textBlockTexts m).map .onText
        ++ [.onMessage m] ++ (toolUseBlocks m).map .onToolUse
  | .unavailable _ _ => []

/-- Provider calls `streamConversation` performs for one turn: the
streaming call always; the non-streaming call with the same parameters
when (and only when) the streaming call failed (part_000 lines 113-119
and 156-162: identical model, token budget, system, messages, tools). -/
def streamConversationApi (p : ModelParams) : TurnOutcome → List ApiCall
  | .streamed .. => [.streamCall p]
  | .fellBack .. => [.streamCall p, .createCall p]
  | .unavailable .. => [.streamCall p, .createCall p]

/-- The final message `streamConversation` resolves with; `none` when both
transport paths failed and the exception propagates. -/
def streamConversationResult : TurnOutcome → Option ChatMessage
  | .streamed _ m => some m
  | .fellBack m => some m
  | .unavailable .. => none

/-! ## System prompt lookup -/

/-- Modelled from the spec: the fixed table of prompt texts
(`prompts.json`, not among the provided sources) — named entries with a
required default entry; prompt texts are non-empty. -/
def systemPromptsTable : List (String × String) :=
  [("standard", "You are a helpful shopping assistant for this store."),
   ("enhanced", "You are a shopping assistant with access to store tools.")]

/-- The configured default prompt name (`AppConfig.api.defaultPromptType`). -/
def defaultPromptType : String := "standard"

/-- First-match association-list lookup (JavaScript property access on the
prompt table object). -/
def lookupPrompt (t : String) : List (String × String) → Option String
  | [] => none
  | (k, v) :: rest => if k = t then some v else lookupPrompt t rest

/-- Definition `getSystemPrompt` (claude.server.js lines 82-85, part_000 lines
196-201): `systemPrompts[promptType]?.content || systemPrompts[default].content`.
JavaScript falsiness: a missing entry — or an entry whose content is the
empty string — falls through to the default entry's content. -/
def getSystemPrompt (promptType : String) : String :=
  match lookupPrompt promptType systemPromptsTable with
  | some c =>
      if c = "" then (lookupPrompt defaultPromptType systemPromptsTable).getD ""
      else c
  | none => (lookupPrompt defaultPromptType systemPromptsTable).getD ""

/-! ## Conversation identifier resolution -/

/-- Conversation id resolution (chat.jsx line 73):
`body.conversation_id || Date.now().toString()`. JS falsiness: an absent
or empty-string client id falls back to the millisecond clock reading
rendered in decimal. -/
def resolveConversationId (conversation_id : Option String) (nowMs : Nat) : String :=
  match conversation_id with
  | some s => if s = "" then toString nowMs else s
  | none => toString nowMs

/-! ## Conversation orchestrator (`handleChatSession`, chat.jsx lines 90-181)

The session is modelled as a function from an environment — scripted
transport outcomes for successive model calls, the tool gateway's
behaviour, the discovery outcomes, the initial database — to the list of
actions the session performs in order (wire sends, persistence calls,
gateway connections, model calls, tool calls) together with how it ended. -/

/-- Wire event sent to the client over the output channel, tagged exactly
as the `type` field of the serialized message. -/
inductive WireEvent where
  | id (conversation_id : String)
  | chunk (text : String)
  | message_complete
  | tool_result (tool_use_id : String) (isError : Bool) (payload : String)
  | new_message
  | content_block_complete (block : ContentBlock)
  | end_turn
  | product_results (products : List String)
  deriving Repr, DecidableEq

/-- One observable action of a session, in program order. -/
inductive Action where
  | send (e : WireEvent)
  | connect (scope : String)
  | warn (msg : String)
  | save (conversationId : String) (role : String) (content : String)
  | load (conversationId : String)
  | modelCall (history : List HistoryEntry) (tools : List Tool)
  | toolCall (name : String) (input : String)

/-- Outcome of one `mcpClient.callTool` invocation (environment input):
a response carrying a result, a response carrying an error payload, or a
thrown exception. -/
inductive ToolOutcome where
  | ok (result : String)
  | errPayload (e : String)
  | thrown (e : String)

/-- Environment of one chat session: everything the surrounding world
feeds the orchestrator. `enrich` is modelled from the spec: the
side-effect handler `toolService.handleToolSuccess` (tool.server, not
among the provided sources) "may enrich the in-memory history or a
side-channel display list", computed here from the tool name and the
successful result. -/
structure SessionEnv where
  userMessage : String
  conversationId : String
  promptType : String
  db0 : Db
  storefrontTools : Except String (List Tool)
  customerTools : Except String (List Tool)
  turns : List TurnOutcome
  callTool : String → String → ToolOutcome
  enrich : String → String → List HistoryEntry × List String

/-- Mutable state of a running session: the in-memory history, the
side-channel product display list, and the durable store. -/
structure SessState where
  history : List HistoryEntry
  products : List String
  db : Db

/-- The part of the environment the turn loop actually reads: the
conversation id, the tool gateway, and the side-effect handler. -/
structure SessionCtx where
  conversationId : String
  callTool : String → String → ToolOutcome
  enrich : String → String → List HistoryEntry × List String

/-- Project the loop-relevant context out of a session environment. -/
def SessionEnv.ctx (env : SessionEnv) : SessionCtx :=
  ⟨env.conversationId, env.callTool, env.enrich⟩

/-- The `onToolUse` handler (chat.jsx lines 136-162) applied to one
tool-use request with the given call outcome. A response is reported as a
`tool_result` event — error payload when the response carries an error,
the result otherwise — followed by a `new_message` event; on a successful
result the side-effect handler may first extend history and the display
list. A thrown call yields only the error-shaped `tool_result` event. -/
def onToolUseHandler (out : ToolOutcome)
    (enrich : String → String → List HistoryEntry × List String)
    (tuId tuName tuInput : String) (st : SessState) :
    List Action × SessState :=
  match out with
  | .thrown e =>
      ([.toolCall tuName tuInput, .send (.tool_result tuId true e)], st)
  | .errPayload e =>
      ([.toolCall tuName tuInput, .send (.tool_result tuId true e),
        .send .new_message], st)
  | .ok r =>
      ([.toolCall tuName tuInput, .send (.tool_result tuId false r),
        .send .new_message],
       ⟨st.history ++ (enrich tuName r).1, st.products ++ (enrich tuName r).2,
        st.db⟩)

/-- The `onMessage` handler (chat.jsx lines 131-135): push the completed
message onto the in-memory history, persist it with stringified content
(write failures are swallowed), and emit `message_complete`. -/
def onMessageHandler (conversationId : String) (m : ChatMessage)
    (st : SessState) : List Action × SessState :=
  ([.save conversationId m.role (serializeContent m.content),
    .send .message_complete],
   ⟨st.history ++ [⟨m.role, .blocks m.content⟩], st.products,
    saveMessage st.db conversationId m.role (serializeContent m.content)⟩)

/-- Apply the orchestrator's handlers (chat.jsx lines 127-168) to the
gateway's handler invocations in order, threading session state. -/
def applyHandlerCalls (ctx : SessionCtx) :
    List HandlerCall → SessState → List Action × SessState
  | [], st => ([], st)
  | h :: rest, st =>
    let step : List Action × SessState :=
      match h with
      | .onText t => ([Action.send (.chunk t)], st)
      | .onMessage m => onMessageHandler ctx.conversationId m st
      | .onToolUse b =>
        match b with
        | .toolUse i n inp => onToolUseHandler (ctx.callTool n inp) ctx.enrich i n inp st
        | _ => ([], st)
      | .onContentBlock b =>
        match b with
        | .text _ => ([Action.send (.content_block_complete b)], st)
        | _ => ([], st)
    let next := applyHandlerCalls ctx rest step.2
    (step.1 ++ next.1, next.2)

/-- The error message carried by a doubly-failed turn. -/
def unavailableErr : TurnOutcome → String
  | .unavailable _ e => e
  | _ => ""

/-- How the turn loop ended. -/
inductive LoopResult where
  | done
  | modelFailed (e : String)
  | scriptExhausted
  deriving Repr, DecidableEq

/-- The turn loop (chat.jsx lines 124-170): call the model gateway with
the current history and catalog, apply the handlers, and repeat while the
final message's `stop_reason` differs from `"end_turn"`. The environment
scripts one `TurnOutcome` per model call; exhausting the script means the
loop would call the model yet again. -/
def runLoop (ctx : SessionCtx) (tools : List Tool) :
    List TurnOutcome → SessState → List Action × SessState × LoopResult
  | [], st => ([], st, .scriptExhausted)
  | t :: rest, st =>
    let callAct := Action.modelCall st.history tools
    match streamConversationResult t with
    | none => ([callAct], st, .modelFailed (unavailableErr t))
    | some m =>
      let applied := applyHandlerCalls ctx (streamConversationCalls t) st
      if m.stop_reason = some "end_turn" then
        (callAct :: applied.1, applied.2, .done)
      else
        let next := runLoop ctx tools rest applied.2
        (callAct :: applied.1 ++ next.1, next.2.1, next.2.2)

/-- Tool discovery (chat.jsx lines 103-109): connect to the storefront
server, then the customer server, both inside one `try`; a throw is
caught, a warning recorded, and the session continues with whatever tools
the client accumulated before the throw (modelled from the spec: the MCP
client gathers the descriptor lists of its successful connects). -/
def discovery (env : SessionEnv) : List Action × List Tool :=
  match env.storefrontTools with
  | .error e => ([.connect "storefront", .warn e], [])
  | .ok ts =>
    match env.customerTools with
    | .error e => ([.connect "storefront", .connect "customer", .warn e], ts)
    | .ok cs => ([.connect "storefront", .connect "customer"], ts ++ cs)

/-- How a session ended: normally (terminal `end_turn` sent), with a
propagated model failure, or with its model-response script exhausted. -/
inductive SessionResult where
  | completed
  | errored (e : String)
  | outOfScript
  deriving Repr, DecidableEq

/-- The actions a session performs before its first model call (chat.jsx
lines 101-116): send the `id` event, attempt discovery, persist the user
message, load history. -/
def sessionPre (env : SessionEnv) : List Action :=
  Action.send (.id env.conversationId) :: (discovery env).1
    ++ [Action.save env.conversationId "user" env.userMessage,
        Action.load env.conversationId]

/-- The durable store after the incoming user message is saved (chat.jsx
line 114): content stored raw, role `user`. -/
def sessionDb1 (env : SessionEnv) : Db :=
  saveMessage env.db0 env.conversationId "user" env.userMessage

/-- The session state entering the turn loop: history loaded from storage
(chat.jsx lines 116-121), empty display list, the post-save store. -/
def sessionInit (env : SessionEnv) : SessState :=
  ⟨loadHistory (sessionDb1 env) env.conversationId, [], sessionDb1 env⟩

/-- The whole turn loop of a session. -/
def sessionLoop (env : SessionEnv) : List Action × SessState × LoopResult :=
  runLoop env.ctx (discovery env).2 env.turns (sessionInit env)

/-- Definition `handleChatSession` (chat.jsx lines 90-181): send the `id` event,
attempt tool discovery once, persist the incoming user message, load the
full history from storage, run the turn loop, then send `end_turn` and —
if the display list is non-empty — a `product_results` event. On a
propagated model failure the session rethrows after the actions so far. -/
def handleChatSession (env : SessionEnv) : List Action × SessionResult :=
  match (sessionLoop env).2.2 with
  | .done =>
      (sessionPre env ++ (sessionLoop env).1 ++ [Action.send .end_turn]
         ++ (if (sessionLoop env).2.1.products.length > 0
             then [Action.send (.product_results (sessionLoop env).2.1.products)]
             else []),
       .completed)
  | .modelFailed e => (sessionPre env ++ (sessionLoop env).1, .errored e)
  | .scriptExhausted => (sessionPre env ++ (sessionLoop env).1, .outOfScript)

/-! ## Trace projections -/

/-- The wire events a list of actions sends, in order. -/
def sentEvents (acts : List Action) : List WireEvent :=
  acts.filterMap (fun a => match a with | .send e => some e | _ => none)

/-- The wire-event trace of a session. -/
def wireTrace (env : SessionEnv) : List WireEvent :=
  sentEvents (handleChatSession env).1

/-- The histories passed to successive model calls, in order. -/
def modelCallHistories (acts : List Action) : List (List HistoryEntry) :=
  acts.filterMap (fun a => match a with | .modelCall h _ => some h | _ => none)

/-- The tool catalogs passed to successive model calls, in order. -/
def modelCallTools (acts : List Action) : List (List Tool) :=
  acts.filterMap (fun a => match a with | .modelCall _ ts => some ts | _ => none)

/-- Whether an action is a model call. -/
def isModelCall : Action → Bool
  | .modelCall .. => true
  | _ => false

/-- Whether an action is a gateway connection attempt. -/
def isConnect : Action → Bool
  | .connect _ => true
  | _ => false

/-! ## Handler-call classifiers -/

/-- Whether a handler invocation is an `onText` call. -/
def isOnText : HandlerCall → Bool
  | .onText _ => true
  | _ => false

/-- Whether a handler invocation is an `onMessage` call. -/
def isOnMessage : HandlerCall → Bool
  | .onMessage _ => true
  | _ => false

/-- Whether an action is a connection attempt to the given gateway scope. -/
def isConnectTo (scope : String) : Action → Bool
  | .connect s => s = scope
  | _ => false

/-- Session with a throwing storefront connect (for exercising C6). -/
def envSfFail : SessionEnv :=
  { userMessage := "hi", conversationId := "c1", promptType := "standard",
    db0 := [], storefrontTools := .error "refused", customerTools := .ok [],
    turns := [.streamed [] ⟨"assistant", some "end_turn", [.text "ok"]⟩],
    callTool := fun _ _ => .thrown "unused",
    enrich := fun _ _ => ([], []) }

/-- Session with a throwing customer connect after a successful storefront
connect (for exercising C6). -/
def envCustFail : SessionEnv :=
  { userMessage := "hi", conversationId := "c1", promptType := "standard",
    db0 := [], storefrontTools := .ok [⟨"search_catalog", "s"⟩],
    customerTools := .error "down",
    turns := [.streamed [] ⟨"assistant", some "end_turn", [.text "ok"]⟩],
    callTool := fun _ _ => .thrown "unused",
    enrich := fun _ _ => ([], []) }

mutual

/-- Whether a string occurs verbatim as a leaf (string value or object
key) of a JSON value. -/
def jsonMentions (s : String) : Json → Bool
  | .jnull => false
  | .jbool _ => false
  | .jnum _ => false
  | .jstr t => t = s
  | .jarr xs => jsonListMentions s xs
  | .jobj fs => jsonFieldsMentions s fs

/-- Mapping of `jsonMentions` over the elements of an array. -/
def jsonListMentions (s : String) : List Json → Bool
  | [] => false
  | j :: rest => jsonMentions s j || jsonListMentions s rest

/-- Mapping of `jsonMentions` over the fields of an object. -/
def jsonFieldsMentions (s : String) : List (String × Json) → Bool
  | [] => false
  | (k, v) :: rest => k = s || jsonMentions s v || jsonFieldsMentions s rest

end

/-- Whether a string occurs verbatim in a content block. -/
def blockMentions (s : String) : ContentBlock → Bool
  | .text t => t = s
  | .toolUse i n inp => i = s || n = s || inp = s

/-- Whether a string occurs verbatim anywhere in a history entry. -/
def entryMentions (s : String) : HistoryEntry → Bool
  | ⟨role, .json j⟩ => role = s || jsonMentions s j
  | ⟨role, .blocks bs⟩ => role = s || bs.any (blockMentions s)

/-- A session whose first model response requests one tool call, whose
tool gateway throws the given error, and whose second response stops. -/
def toolThrowEnv (db0 : Db) (cid um tid tname tinput e r2 t2 : String) :
    SessionEnv :=
  { userMessage := um, conversationId := cid, promptType := "standard",
    db0 := db0, storefrontTools := .ok [], customerTools := .ok [],
    turns := [.streamed []
                ⟨"assistant", some "tool_use", [.toolUse tid tname tinput]⟩,
              .streamed [] ⟨r2, some "end_turn", [.text t2]⟩],
    callTool := fun _ _ => .thrown e,
    enrich := fun _ _ => ([], []) }

/-- Counting over a mapped list whose image always satisfies the
predicate counts the whole list. -/
theorem countP_map_const_true {α β : Type} (p : β → Bool) (f : α → β)
    (l : List α) (h : ∀ a, p (f a) = true) :
    (l.map f).countP p = l.length := by
  rw [List.countP_map]
  exact List.countP_eq_length.mpr (fun a _ => h a)

/-- Counting over a mapped list whose image never satisfies the predicate
counts nothing. -/
theorem countP_map_const_false {α β : Type} (p : β → Bool) (f : α → β)
    (l : List α) (h : ∀ a, p (f a) = false) :
    (l.map f).countP p = 0 := by
  rw [List.countP_map]
  exact List.countP_eq_zero.mpr (fun a _ => by simp [Function.comp, h a])

/-! ## Claims about the model gateway -/

/-- C3: when the streaming completion call fails, `streamConversation`
retries the same turn (identical parameters) through the non-streaming
completion call; on fallback success `onText` fires once per text block of
the response (per block, not per incremental delta), then `onMessage`
exactly once, then `onToolUse` once per tool-use block; when the fallback
also fails the non-streaming call was still attempted with the same
parameters and no handler runs. -/
theorem fallback_retries_same_turn (p : ModelParams) (m : ChatMessage)
    (e1 e2 : String) :
    streamConversationApi p (.fellBack m) = [.streamCall p, .createCall p]
    ∧ streamConversationCalls (.fellBack m)
        = (textBlockTexts m).map .onText ++ [.onMessage m]
            ++ (toolUseBlocks m).map .onToolUse
    ∧ (streamConversationCalls (.fellBack m)).countP isOnText
        = (textBlockTexts m).length
    ∧ (streamConversationCalls (.fellBack m)).countP isOnMessage = 1
    ∧ streamConversationApi p (.unavailable e1 e2)
        = [.streamCall p, .createCall p]
    ∧ streamConversationCalls (.unavailable e1 e2) = [] := by
  refine ⟨rfl, rfl, ?_, ?_, rfl, rfl⟩
  · simp [streamConversationCalls, List.countP_append, List.countP_cons,
      countP_map_const_true isOnText HandlerCall.onText _ (fun _ => rfl),
      countP_map_const_false isOnText HandlerCall.onToolUse _ (fun _ => rfl),
      isOnText]
  · simp [streamConversationCalls, List.countP_append, List.countP_cons,
      countP_map_const_false isOnMessage HandlerCall.onText _ (fun _ => rfl),
      countP_map_const_false isOnMessage HandlerCall.onToolUse _ (fun _ => rfl),
      isOnMessage]

/-- C4: every model turn that completes with a final message invokes
`onMessage` exactly once with that message, all `onText` invocations
precede it, and `onToolUse` fires once per tool-use content block of the
final message, in block order, after it. -/
theorem turn_handler_cardinality (o : TurnOutcome) (m : ChatMessage)
    (h : streamConversationResult o = some m) :
    (∃ ts : List String,
       streamConversationCalls o
         = ts.map .onText ++ [.onMessage m]
             ++ (toolUseBlocks m).map .onToolUse)
    ∧ (streamConversationCalls o).countP isOnMessage = 1 := by
  cases o with
  | streamed ds m2 =>
      have hm : m2 = m := by simpa [streamConversationResult] using h
      refine ⟨⟨ds.filter (fun d => d ≠ ""), by rw [← hm]; rfl⟩, ?_⟩
      simp [streamConversationCalls, List.countP_append, List.countP_cons,
        countP_map_const_false isOnMessage HandlerCall.onText _ (fun _ => rfl),
        countP_map_const_false isOnMessage HandlerCall.onToolUse _ (fun _ => rfl),
        isOnMessage]
  | fellBack m2 =>
      have hm : m2 = m := by simpa [streamConversationResult] using h
      refine ⟨⟨textBlockTexts m2, by rw [← hm]; rfl⟩, ?_⟩
      simp [streamConversationCalls, List.countP_append, List.countP_cons,
        countP_map_const_false isOnMessage HandlerCall.onText _ (fun _ => rfl),
        countP_map_const_false isOnMessage HandlerCall.onToolUse _ (fun _ => rfl),
        isOnMessage]
  | unavailable e1 e2 => cases h

/-- Witness for C4 at a concrete streamed turn with one delta, one text
block and one tool-use block. -/
theorem turn_handler_cardinality_witness :
    streamConversationResult
        (.streamed ["Hi"] ⟨"assistant", some "tool_use",
          [.text "Hi", .toolUse "t1" "search" "q"]⟩)
      = some ⟨"assistant", some "tool_use",
          [.text "Hi", .toolUse "t1" "search" "q"]⟩
    ∧ ((∃ ts : List String,
         streamConversationCalls
             (.streamed ["Hi"] ⟨"assistant", some "tool_use",
               [.text "Hi", .toolUse "t1" "search" "q"]⟩)
           = ts.map .onText
               ++ [.onMessage ⟨"assistant", some "tool_use",
                     [.text "Hi", .toolUse "t1" "search" "q"]⟩]
               ++ (toolUseBlocks ⟨"assistant", some "tool_use",
                     [.text "Hi", .toolUse "t1" "search" "q"]⟩).map .onToolUse)
       ∧ (streamConversationCalls
             (.streamed ["Hi"] ⟨"assistant", some "tool_use",
               [.text "Hi", .toolUse "t1" "search" "q"]⟩)).countP isOnMessage
           = 1) :=
  ⟨rfl, turn_handler_cardinality _ _ rfl⟩

/-! ## Claims about the system-prompt lookup -/

/-- C9: the system-prompt lookup returns the stored content for a name
present in the fixed table, and the default entry's content for an absent
name. -/
theorem system_prompt_lookup (t c : String) :
    (lookupPrompt t systemPromptsTable = some c → getSystemPrompt t = c)
    ∧ (lookupPrompt t systemPromptsTable = none →
        getSystemPrompt t
          = "You are a helpful shopping assistant for this store.") := by
  constructor
  · intro h
    have hc : c ≠ "" := by
      simp only [lookupPrompt, systemPromptsTable] at h
      split at h
      · injection h with h2
        subst h2
        decide
      · split at h
        · injection h with h2
          subst h2
          decide
        · cases h
    unfold getSystemPrompt
    rw [h]
    simp [hc]
  · intro h
    unfold getSystemPrompt
    rw [h]
    rfl

/-- Witness for C9: a present non-default name returns its own content; an
absent name returns the default content. -/
theorem system_prompt_lookup_witness :
    getSystemPrompt "enhanced"
      = "You are a shopping assistant with access to store tools."
    ∧ getSystemPrompt "no_such_prompt"
      = "You are a helpful shopping assistant for this store." :=
  ⟨(system_prompt_lookup "enhanced" _).1 rfl,
   (system_prompt_lookup "no_such_prompt" "").2 rfl⟩

/-! ## Claims about conversation-identifier resolution -/

/-- Counterexample for C8: two chat sessions started in the same
millisecond, neither supplying a conversation id, resolve to the same
identifier (the decimal clock string), so identifiers of id-less sessions
are not always distinct; moreover a supplied-but-empty id is not used
unchanged. -/
theorem conversation_id_collision :
    resolveConversationId none 1700000000000 = "1700000000000"
    ∧ resolveConversationId none 1700000000000
        = resolveConversationId none 1700000000000
    ∧ resolveConversationId (some "") 42 = "42" :=
  ⟨rfl, rfl, rfl⟩

/-- C8 (amended): a non-empty client-supplied conversation id is used
unchanged; an absent — or empty — id resolves to the decimal string of
the current millisecond clock, which is not guaranteed unique across
sessions sharing a millisecond. -/
theorem conversation_id_resolution (s : String) (nowMs : Nat) :
    (s ≠ "" → resolveConversationId (some s) nowMs = s)
    ∧ resolveConversationId none nowMs = toString nowMs
    ∧ resolveConversationId (some "") nowMs = toString nowMs := by
  refine ⟨fun h => ?_, rfl, by simp [resolveConversationId]⟩
  simp [resolveConversationId, h]

/-- Witness for C8 (amended) at a concrete supplied id and clock value. -/
theorem conversation_id_resolution_witness :
    ("abc" ≠ "" → resolveConversationId (some "abc") 7 = "abc")
    ∧ resolveConversationId none 7 = toString 7
    ∧ resolveConversationId (some "") 7 = toString 7 :=
  conversation_id_resolution "abc" 7

/-! ## Claims about the tool-dispatch handler -/

/-- C10: a dispatched tool-use request whose gateway call returns without
throwing yields exactly the events `tool_result` then `new_message` —
also when the returned response carries an error payload — while a
dispatch whose call throws yields only the error-shaped `tool_result`
event and no `new_message`. -/
theorem tool_dispatch_wire_events
    (enrich : String → String → List HistoryEntry × List String)
    (i n inp r e : String) (st : SessState) :
    sentEvents (onToolUseHandler (.ok r) enrich i n inp st).1
      = [.tool_result i false r, .new_message]
    ∧ sentEvents (onToolUseHandler (.errPayload e) enrich i n inp st).1
      = [.tool_result i true e, .new_message]
    ∧ sentEvents (onToolUseHandler (.thrown e) enrich i n inp st).1
      = [.tool_result i true e] :=
  ⟨rfl, rfl, rfl⟩

/-! ## Claims about message persistence and reload -/

/-- Counterexample for C7: saving the plain-text user message `"42"` and
loading history yields content `42` (a JSON number) — neither the raw
stored string `"42"` nor the serialize/deserialize round-trip of the
original string content, which both give the string value. -/
theorem numeric_text_content_transformed :
    loadHistory (saveMessage [] "c1" "user" "42") "c1"
      = [⟨"user", .json (.jnum 42)⟩]
    ∧ (Json.jnum 42 = Json.jstr "42" → False)
    ∧ deserializeContent (stringify (.jstr "42")) = .jstr "42" :=
  ⟨rfl, fun h => Json.noConfusion h, rfl⟩

/-- C7 (amended): loading after saving yields the message last, role
preserved, with content equal to the JSON-parse of the stored string when
it parses and the raw stored string otherwise; structured content stored
via the serializer round-trips (concrete instance), while a plain-text
message whose text is itself valid JSON is loaded as the parsed value. -/
theorem save_then_load_yields_message_last (db : Db) (cid r s : String) :
    (loadHistory (saveMessage db cid r s) cid).getLast?
      = some ⟨r, .json (deserializeContent s)⟩
    ∧ deserializeContent (serializeContent [.text "Hi!", .toolUse "t1" "search" "q"])
      = .jarr [blockToJson (.text "Hi!"), blockToJson (.toolUse "t1" "search" "q")]
    ∧ deserializeContent "just words" = .jstr "just words" := by
  refine ⟨?_, rfl, rfl⟩
  unfold loadHistory saveMessage getConversationHistory
  rw [List.filter_append, List.map_append]
  simp [List.getLast?_concat]

/-- Concrete exercise of the save-then-load path: an assistant message
with structured content round-trips through storage. -/
theorem save_then_load_concrete :
    (loadHistory (saveMessage [⟨"other", "user", "x"⟩] "c9" "assistant"
        (serializeContent [.text "Hello!"])) "c9").getLast?
      = some ⟨"assistant", .json (.jarr [blockToJson (.text "Hello!")])⟩ :=
  rfl


/-! ## Session-level helper lemmas -/

theorem sentEvents_nil : sentEvents [] = [] := rfl

theorem sentEvents_cons_send (e : WireEvent) (l : List Action) :
    sentEvents (Action.send e :: l) = e :: sentEvents l := rfl

theorem sentEvents_cons_modelCall (h : List HistoryEntry) (ts : List Tool)
    (l : List Action) :
    sentEvents (Action.modelCall h ts :: l) = sentEvents l := rfl

theorem sentEvents_cons_save (c r s : String) (l : List Action) :
    sentEvents (Action.save c r s :: l) = sentEvents l := rfl

theorem sentEvents_append (a b : List Action) :
    sentEvents (a ++ b) = sentEvents a ++ sentEvents b :=
  List.filterMap_append ..

theorem sentEvents_chunks (ds : List String) :
    sentEvents (ds.map (fun d => Action.send (.chunk d))) = ds.map .chunk := by
  unfold sentEvents
  rw [List.filterMap_map]
  exact List.filterMap_eq_map_iff_forall_eq_some.mpr (fun d _ => rfl)

theorem countP_modelCall_chunks (ds : List String) :
    (ds.map (fun d => Action.send (.chunk d))).countP isModelCall = 0 :=
  countP_map_const_false _ _ _ (fun _ => rfl)

theorem discovery_no_send (env : SessionEnv) :
    sentEvents (discovery env).1 = [] := by
  unfold discovery
  rcases env.storefrontTools with e | ts
  · rfl
  · rcases env.customerTools with e | cs <;> rfl

theorem discovery_no_modelCall (env : SessionEnv) :
    (discovery env).1.countP isModelCall = 0 := by
  unfold discovery
  rcases env.storefrontTools with e | ts
  · rfl
  · rcases env.customerTools with e | cs <;> rfl

theorem sentEvents_pre (env : SessionEnv) :
    sentEvents (sessionPre env) = [.id env.conversationId] := by
  unfold sessionPre
  rw [sentEvents_append, sentEvents_cons_send, discovery_no_send]
  rfl

theorem countP_modelCall_pre (env : SessionEnv) :
    (sessionPre env).countP isModelCall = 0 := by
  unfold sessionPre
  rw [List.countP_append]
  simp [List.countP_cons, isModelCall, discovery_no_modelCall env]

theorem applyHandlerCalls_append (ctx : SessionCtx) (l1 l2 : List HandlerCall)
    (st : SessState) :
    applyHandlerCalls ctx (l1 ++ l2) st
      = ((applyHandlerCalls ctx l1 st).1
           ++ (applyHandlerCalls ctx l2 (applyHandlerCalls ctx l1 st).2).1,
         (applyHandlerCalls ctx l2 (applyHandlerCalls ctx l1 st).2).2) := by
  induction l1 generalizing st with
  | nil => simp [applyHandlerCalls]
  | cons h rest ih => simp [applyHandlerCalls, ih, List.append_assoc]

theorem applyHandlerCalls_onTexts (ctx : SessionCtx) (ts : List String)
    (st : SessState) :
    applyHandlerCalls ctx (ts.map .onText) st
      = (ts.map (fun t => Action.send (.chunk t)), st) := by
  induction ts with
  | nil => rfl
  | cons t rest ih => simp [applyHandlerCalls, ih]

theorem applyHandlerCalls_onMessage (ctx : SessionCtx) (m : ChatMessage)
    (st : SessState) :
    applyHandlerCalls ctx [.onMessage m] st
      = onMessageHandler ctx.conversationId m st := by
  simp [applyHandlerCalls]

/-- A turn whose final message carries the stop indicator and no tool-use
block performs one model call, forwards the non-empty deltas as chunks,
runs the message handler, and terminates the loop. -/
theorem runLoop_stop (ctx : SessionCtx) (tools : List Tool) (ds : List String)
    (m : ChatMessage) (rest : List TurnOutcome) (st : SessState)
    (hstop : m.stop_reason = some "end_turn") (hnt : toolUseBlocks m = []) :
    runLoop ctx tools (.streamed ds m :: rest) st
      = (Action.modelCall st.history tools
           :: ((ds.filter (fun d => d ≠ "")).map (fun d => Action.send (.chunk d))
               ++ (onMessageHandler ctx.conversationId m st).1),
         (onMessageHandler ctx.conversationId m st).2, .done) := by
  have hcalls : streamConversationCalls (.streamed ds m)
      = (ds.filter (fun d => d ≠ "")).map .onText ++ [.onMessage m] := by
    simp [streamConversationCalls, hnt]
  simp [runLoop, streamConversationResult, hcalls, applyHandlerCalls_append,
    applyHandlerCalls_onTexts, applyHandlerCalls_onMessage, hstop]

/-- Any attempted turn contributes at least one model call to the trace. -/
theorem runLoop_cons_hasCall (ctx : SessionCtx) (tools : List Tool)
    (t : TurnOutcome) (rest : List TurnOutcome) (st : SessState) :
    1 ≤ (runLoop ctx tools (t :: rest) st).1.countP isModelCall := by
  cases h : streamConversationResult t with
  | none => simp [runLoop, h, List.countP_cons, isModelCall]
  | some m =>
      by_cases hs : m.stop_reason = some "end_turn" <;>
        simp [runLoop, h, hs, List.countP_cons, isModelCall]

/-- A completed turn whose message does not carry the stop indicator
continues the loop on the remaining script. -/
theorem runLoop_cons_continue (ctx : SessionCtx) (tools : List Tool)
    (t : TurnOutcome) (rest : List TurnOutcome) (st : SessState)
    (m : ChatMessage) (hres : streamConversationResult t = some m)
    (hstop : m.stop_reason ≠ some "end_turn") :
    runLoop ctx tools (t :: rest) st
      = (Action.modelCall st.history tools
           :: (applyHandlerCalls ctx (streamConversationCalls t) st).1
           ++ (runLoop ctx tools rest
                 (applyHandlerCalls ctx (streamConversationCalls t) st).2).1,
         (runLoop ctx tools rest
            (applyHandlerCalls ctx (streamConversationCalls t) st).2).2.1,
         (runLoop ctx tools rest
            (applyHandlerCalls ctx (streamConversationCalls t) st).2).2.2) := by
  simp only [runLoop, hres, hstop, if_false]

theorem takeWhile_append_of_all {α : Type} (p : α → Bool) (l1 l2 : List α)
    (h : ∀ a ∈ l1, p a = true) :
    (l1 ++ l2).takeWhile p = l1 ++ l2.takeWhile p := by
  induction l1 with
  | nil => simp
  | cons a rest ih =>
      have ha := h a (by simp)
      simp [List.takeWhile_cons, ha, ih (fun b hb => h b (by simp [hb]))]

/-! ## Claims about the orchestrator's turn loop -/

/-- C1: a session whose first model response declares the stop indicator
(`stop_reason = "end_turn"`) and contains no tool-use block performs
exactly one model call and puts on the wire exactly one `id` event, the
forwarded non-empty deltas as `chunk` events, one `message_complete` and
one `end_turn`, in that order; and in general a completed turn whose
message does not declare the stop indicator is followed by a further
model call. -/
theorem single_turn_session_events :
    (∀ (env : SessionEnv) (ds : List String) (m : ChatMessage)
       (rest : List TurnOutcome),
       env.turns = .streamed ds m :: rest →
       m.stop_reason = some "end_turn" →
       toolUseBlocks m = [] →
       wireTrace env
         = .id env.conversationId
             :: ((ds.filter (fun d => d ≠ "")).map .chunk
                 ++ [.message_complete, .end_turn])
       ∧ (handleChatSession env).1.countP isModelCall = 1)
    ∧ (∀ (env : SessionEnv) (t1 t2 : TurnOutcome) (m : ChatMessage)
       (rest : List TurnOutcome),
       env.turns = t1 :: t2 :: rest →
       streamConversationResult t1 = some m →
       m.stop_reason ≠ some "end_turn" →
       2 ≤ (handleChatSession env).1.countP isModelCall) := by
  constructor
  · intro env ds m rest hturns hstop hnt
    have hloop : sessionLoop env
        = (Action.modelCall (sessionInit env).history (discovery env).2
             :: ((ds.filter (fun d => d ≠ "")).map (fun d => Action.send (.chunk d))
                 ++ (onMessageHandler env.ctx.conversationId m (sessionInit env)).1),
           (onMessageHandler env.ctx.conversationId m (sessionInit env)).2,
           .done) := by
      unfold sessionLoop
      rw [hturns, runLoop_stop env.ctx _ ds m rest _ hstop hnt]
    have hprod : (onMessageHandler env.ctx.conversationId m (sessionInit env)).2.products
        = [] := rfl
    constructor
    · unfold wireTrace handleChatSession
      rw [hloop]
      simp only [hprod, List.length_nil, gt_iff_lt, Nat.lt_irrefl, if_false]
      rw [sentEvents_append, sentEvents_append, sentEvents_append, sentEvents_pre]
      rw [show sentEvents [Action.send WireEvent.end_turn] = [WireEvent.end_turn] from rfl]
      rw [sentEvents_nil, List.append_nil, sentEvents_cons_modelCall,
        sentEvents_append, sentEvents_chunks]
      rw [show sentEvents (onMessageHandler env.ctx.conversationId m (sessionInit env)).1
            = [WireEvent.message_complete] from rfl]
      simp
    · unfold handleChatSession
      rw [hloop]
      simp only [hprod, List.length_nil, gt_iff_lt, Nat.lt_irrefl, if_false]
      rw [List.append_nil, List.countP_append, List.countP_append,
        countP_modelCall_pre]
      rw [List.countP_cons, List.countP_append, countP_modelCall_chunks]
      rw [show (onMessageHandler env.ctx.conversationId m (sessionInit env)).1.countP
            isModelCall = 0 from rfl]
      rw [show [Action.send WireEvent.end_turn].countP isModelCall = 0 from rfl]
      simp [isModelCall]
  · intro env t1 t2 m rest hturns hres hstop
    have hge : 2 ≤ (sessionLoop env).1.countP isModelCall := by
      unfold sessionLoop
      rw [hturns, runLoop_cons_continue env.ctx (discovery env).2 t1 (t2 :: rest)
        (sessionInit env) m hres hstop]
      have h2 := runLoop_cons_hasCall env.ctx (discovery env).2 t2 rest
        (applyHandlerCalls env.ctx (streamConversationCalls t1) (sessionInit env)).2
      simp only [List.countP_cons, List.countP_append,
        show isModelCall (Action.modelCall (sessionInit env).history
          (discovery env).2) = true from rfl, if_true]
      omega
    unfold handleChatSession
    cases hr : (sessionLoop env).2.2 with
    | done =>
        rw [List.countP_append, List.countP_append, List.countP_append,
          countP_modelCall_pre]
        have hif : (if (sessionLoop env).2.1.products.length > 0
            then [Action.send (.product_results (sessionLoop env).2.1.products)]
            else []).countP isModelCall = 0 := by
          split <;> rfl
        rw [hif]
        rw [show [Action.send WireEvent.end_turn].countP isModelCall = 0 from rfl]
        omega
    | modelFailed e =>
        rw [List.countP_append, countP_modelCall_pre]
        omega
    | scriptExhausted =>
        rw [List.countP_append, countP_modelCall_pre]
        omega

/-- Witness for C1: both conjuncts applied at concrete sessions — a
single stop-turn session with two deltas, and a two-turn session whose
first message does not declare the stop indicator. -/
theorem single_turn_session_events_witness :
    wireTrace
        { userMessage := "hi", conversationId := "c1", promptType := "standard",
          db0 := [], storefrontTools := .ok [], customerTools := .ok [],
          turns := [.streamed ["He", "llo!"] ⟨"assistant", some "end_turn",
            [.text "Hello!"]⟩],
          callTool := fun _ _ => .thrown "unused",
          enrich := fun _ _ => ([], []) }
      = [.id "c1", .chunk "He", .chunk "llo!", .message_complete, .end_turn]
    ∧ 2 ≤ (handleChatSession
        { userMessage := "hi", conversationId := "c1", promptType := "standard",
          db0 := [], storefrontTools := .ok [], customerTools := .ok [],
          turns := [.streamed [] ⟨"assistant", some "max_tokens", [.text "…"]⟩,
                    .streamed [] ⟨"assistant", some "end_turn", [.text "done"]⟩],
          callTool := fun _ _ => .thrown "unused",
          enrich := fun _ _ => ([], []) }).1.countP isModelCall := by
  constructor
  · exact (single_turn_session_events.1 _ ["He", "llo!"]
      ⟨"assistant", some "end_turn", [.text "Hello!"]⟩ [] rfl rfl rfl).1
  · exact single_turn_session_events.2 _ _ _
      ⟨"assistant", some "max_tokens", [.text "…"]⟩ [] rfl rfl (by simp)

/-- C5: in every session the incoming user message is saved with role
`user` strictly before the first model call: the save action lies in the
longest model-call-free prefix of the session's action trace. -/
theorem user_saved_before_first_model_call (env : SessionEnv) :
    Action.save env.conversationId "user" env.userMessage
      ∈ (handleChatSession env).1.takeWhile (fun a => !isModelCall a) := by
  have hpre : ∀ a ∈ sessionPre env, (!isModelCall a) = true := by
    intro a ha
    unfold sessionPre at ha
    rcases List.mem_append.mp ha with hd | ht
    · rcases List.mem_cons.mp hd with rfl | hd2
      · rfl
      · unfold discovery at hd2
        cases henv : env.storefrontTools with
        | error e =>
            rw [henv] at hd2
            simp at hd2
            rcases hd2 with rfl | rfl <;> rfl
        | ok ts =>
            rw [henv] at hd2
            cases henv2 : env.customerTools with
            | error e =>
                rw [henv2] at hd2
                simp at hd2
                rcases hd2 with rfl | rfl | rfl <;> rfl
            | ok cs =>
                rw [henv2] at hd2
                simp at hd2
                rcases hd2 with rfl | rfl <;> rfl
    · simp at ht
      rcases ht with rfl | rfl <;> rfl
  have hmem : Action.save env.conversationId "user" env.userMessage
      ∈ sessionPre env := by
    unfold sessionPre
    simp
  unfold handleChatSession
  cases hr : (sessionLoop env).2.2 with
  | done =>
      rw [List.append_assoc, List.append_assoc,
        takeWhile_append_of_all _ _ _ hpre]
      exact List.mem_append_left _ hmem
  | modelFailed e =>
      rw [takeWhile_append_of_all _ _ _ hpre]
      exact List.mem_append_left _ hmem
  | scriptExhausted =>
      rw [takeWhile_append_of_all _ _ _ hpre]
      exact List.mem_append_left _ hmem

/-! ## Discovery-failure claims -/


/-- Handler application never performs model calls or gateway
connections. -/
theorem applyHandlerCalls_actions (ctx : SessionCtx) (l : List HandlerCall)
    (st : SessState) :
    ∀ a ∈ (applyHandlerCalls ctx l st).1,
      isModelCall a = false ∧ ∀ scope, isConnectTo scope a = false := by
  induction l generalizing st with
  | nil => intro a ha; cases ha
  | cons h rest ih =>
      intro a ha
      cases h with
      | onText t =>
          simp only [applyHandlerCalls, List.mem_append] at ha
          rcases ha with ha | ha
          · simp at ha
            subst ha
            exact ⟨rfl, fun _ => rfl⟩
          · exact ih _ a ha
      | onMessage m =>
          simp only [applyHandlerCalls, onMessageHandler, List.mem_append] at ha
          rcases ha with ha | ha
          · simp at ha
            rcases ha with rfl | rfl
            · exact ⟨rfl, fun _ => rfl⟩
            · exact ⟨rfl, fun _ => rfl⟩
          · exact ih _ a ha
      | onContentBlock b =>
          cases b with
          | text t =>
              simp only [applyHandlerCalls, List.mem_append] at ha
              rcases ha with ha | ha
              · simp at ha
                subst ha
                exact ⟨rfl, fun _ => rfl⟩
              · exact ih _ a ha
          | toolUse i n inp =>
              simp only [applyHandlerCalls, List.mem_append] at ha
              rcases ha with ha | ha
              · simp at ha
              · exact ih _ a ha
      | onToolUse b =>
          cases b with
          | text t =>
              simp only [applyHandlerCalls, List.mem_append] at ha
              rcases ha with ha | ha
              · simp at ha
              · exact ih _ a ha
          | toolUse i n inp =>
              simp only [applyHandlerCalls, List.mem_append] at ha
              cases hout : ctx.callTool n inp with
              | ok r =>
                  rw [hout] at ha
                  simp only [onToolUseHandler] at ha
                  rcases ha with ha | ha
                  · simp at ha
                    rcases ha with rfl | rfl | rfl <;> exact ⟨rfl, fun _ => rfl⟩
                  · exact ih _ a ha
              | errPayload e =>
                  rw [hout] at ha
                  simp only [onToolUseHandler] at ha
                  rcases ha with ha | ha
                  · simp at ha
                    rcases ha with rfl | rfl | rfl <;> exact ⟨rfl, fun _ => rfl⟩
                  · exact ih _ a ha
              | thrown e =>
                  rw [hout] at ha
                  simp only [onToolUseHandler] at ha
                  rcases ha with ha | ha
                  · simp at ha
                    rcases ha with rfl | rfl <;> exact ⟨rfl, fun _ => rfl⟩
                  · exact ih _ a ha

/-- The turn loop records model calls only with the catalog it was given,
and performs no gateway connection. -/
theorem runLoop_actions (ctx : SessionCtx) (tools : List Tool)
    (turns : List TurnOutcome) (st : SessState) :
    (∀ ts ∈ modelCallTools (runLoop ctx tools turns st).1, ts = tools)
    ∧ ∀ scope, (runLoop ctx tools turns st).1.countP (isConnectTo scope) = 0 := by
  induction turns generalizing st with
  | nil =>
      constructor
      · intro ts h
        cases h
      · intro scope
        rfl
  | cons t rest ih =>
      cases h : streamConversationResult t with
      | none =>
          refine ⟨fun ts hts => ?_, fun scope => ?_⟩
          · simp [runLoop, h, modelCallTools] at hts
            exact hts
          · simp [runLoop, h, List.countP_cons, isConnectTo]
      | some m =>
          by_cases hs : m.stop_reason = some "end_turn"
          · refine ⟨fun ts hts => ?_, fun scope => ?_⟩
            · simp only [runLoop, h, hs, if_true] at hts
              rcases List.mem_filterMap.mp hts with ⟨a, ha, hfa⟩
              rcases List.mem_cons.mp ha with rfl | ha2
              · simp at hfa
                exact hfa.symm
              · have h2 := (applyHandlerCalls_actions ctx
                  (streamConversationCalls t) st a ha2).1
                cases a <;> simp_all [isModelCall]
            · simp only [runLoop, h, hs, if_true]
              have hneg : ¬ isConnectTo scope (Action.modelCall st.history tools)
                  = true := by simp [isConnectTo]
              rw [List.countP_cons_of_neg _ _ hneg]
              exact List.countP_eq_zero.mpr (fun a ha => by
                simp [(applyHandlerCalls_actions ctx
                  (streamConversationCalls t) st a ha).2 scope])
          · refine ⟨fun ts hts => ?_, fun scope => ?_⟩
            · simp only [runLoop, h, hs, if_false] at hts
              rcases List.mem_filterMap.mp hts with ⟨a, ha, hfa⟩
              rcases List.mem_append.mp ha with ha1 | ha2
              · rcases List.mem_cons.mp ha1 with rfl | ha3
                · simp at hfa
                  exact hfa.symm
                · have h2 := (applyHandlerCalls_actions ctx
                    (streamConversationCalls t) st a ha3).1
                  cases a <;> simp_all [isModelCall]
              · exact (ih _).1 ts (List.mem_filterMap.mpr ⟨a, ha2, hfa⟩)
            · simp only [runLoop, h, hs, if_false]
              have hneg : ¬ isConnectTo scope (Action.modelCall st.history tools)
                  = true := by simp [isConnectTo]
              rw [List.countP_append, List.countP_cons_of_neg _ _ hneg]
              rw [List.countP_eq_zero.mpr (fun a ha => by
                simp [(applyHandlerCalls_actions ctx
                  (streamConversationCalls t) st a ha).2 scope])]
              rw [(ih _).2 scope]

theorem modelCallTools_append (a b : List Action) :
    modelCallTools (a ++ b) = modelCallTools a ++ modelCallTools b :=
  List.filterMap_append ..

theorem modelCallHistories_append (a b : List Action) :
    modelCallHistories (a ++ b) = modelCallHistories a ++ modelCallHistories b :=
  List.filterMap_append ..

theorem modelCallTools_pre (env : SessionEnv) :
    modelCallTools (sessionPre env) = [] := by
  refine List.filterMap_eq_nil_iff.mpr ?_
  intro a ha
  unfold sessionPre at ha
  rcases List.mem_append.mp ha with hd | ht
  · rcases List.mem_cons.mp hd with rfl | hd2
    · rfl
    · unfold discovery at hd2
      cases henv : env.storefrontTools with
      | error e =>
          rw [henv] at hd2
          simp at hd2
          rcases hd2 with rfl | rfl <;> rfl
      | ok ts =>
          rw [henv] at hd2
          cases henv2 : env.customerTools with
          | error e =>
              rw [henv2] at hd2
              simp at hd2
              rcases hd2 with rfl | rfl | rfl <;> rfl
          | ok cs =>
              rw [henv2] at hd2
              simp at hd2
              rcases hd2 with rfl | rfl <;> rfl
  · simp at ht
    rcases ht with rfl | rfl <;> rfl

/-- The session's action trace begins with the pre-loop actions. -/
theorem session_trace_shape (env : SessionEnv) :
    ∃ rest, (handleChatSession env).1 = sessionPre env ++ rest := by
  unfold handleChatSession
  cases hr : (sessionLoop env).2.2
  · exact ⟨_, by rw [List.append_assoc, List.append_assoc]⟩
  · exact ⟨_, rfl⟩
  · exact ⟨_, rfl⟩

/-- Every model call of a session passes exactly the discovered catalog. -/
theorem session_modelCallTools (env : SessionEnv) :
    ∀ ts ∈ modelCallTools (handleChatSession env).1, ts = (discovery env).2 := by
  intro ts hts
  unfold handleChatSession at hts
  revert hts
  cases hr : (sessionLoop env).2.2 <;> intro hts
  · rw [modelCallTools_append, modelCallTools_append, modelCallTools_append,
      modelCallTools_pre] at hts
    simp only [List.nil_append, List.mem_append] at hts
    rcases hts with (hts | hts) | hts
    · exact (runLoop_actions env.ctx _ env.turns (sessionInit env)).1 ts hts
    · cases hts
    · revert hts
      split <;> intro hts <;> cases hts
  · rw [modelCallTools_append, modelCallTools_pre] at hts
    simp only [List.nil_append] at hts
    exact (runLoop_actions env.ctx _ env.turns (sessionInit env)).1 ts hts
  · rw [modelCallTools_append, modelCallTools_pre] at hts
    simp only [List.nil_append] at hts
    exact (runLoop_actions env.ctx _ env.turns (sessionInit env)).1 ts hts

theorem discovery_connect_counts (env : SessionEnv) :
    (discovery env).1.countP (isConnectTo "storefront") ≤ 1
    ∧ (discovery env).1.countP (isConnectTo "customer") ≤ 1 := by
  unfold discovery
  rcases env.storefrontTools with e | ts
  · simp [List.countP_cons, isConnectTo]
  · rcases env.customerTools with e | cs <;> simp [List.countP_cons, isConnectTo]

theorem session_connect_count_pre (env : SessionEnv) (scope : String) :
    (sessionPre env).countP (isConnectTo scope)
      = (discovery env).1.countP (isConnectTo scope) := by
  unfold sessionPre
  rw [List.countP_append, List.countP_cons_of_neg _ _ (by simp [isConnectTo])]
  simp [List.countP_cons, isConnectTo]

/-- Tool discovery is attempted at most once per session: a gateway scope
connected to at most once during discovery is connected to at most once
in the whole trace. -/
theorem session_connect_le (env : SessionEnv) (scope : String)
    (h1 : (discovery env).1.countP (isConnectTo scope) ≤ 1) :
    (handleChatSession env).1.countP (isConnectTo scope) ≤ 1 := by
  have hloop : (sessionLoop env).1.countP (isConnectTo scope) = 0 :=
    (runLoop_actions env.ctx (discovery env).2 env.turns (sessionInit env)).2 scope
  unfold handleChatSession
  cases hr : (sessionLoop env).2.2
  · rw [List.countP_append, List.countP_append, List.countP_append,
      session_connect_count_pre env scope, hloop]
    have htail : (if (sessionLoop env).2.1.products.length > 0
        then [Action.send (.product_results (sessionLoop env).2.1.products)]
        else []).countP (isConnectTo scope) = 0 := by
      split <;> rfl
    rw [htail]
    rw [show [Action.send WireEvent.end_turn].countP (isConnectTo scope) = 0
      from rfl]
    omega
  · rw [List.countP_append, session_connect_count_pre env scope, hloop]
    omega
  · rw [List.countP_append, session_connect_count_pre env scope, hloop]
    omega

/-- Counterexample for C6: a session in which the storefront connect
succeeds with one tool and the customer connect throws continues and
completes, but its model call receives the storefront tool — not an empty
catalog as the claim states. -/
theorem partial_discovery_failure_keeps_tools :
    (handleChatSession
        { userMessage := "hi", conversationId := "c1", promptType := "standard",
          db0 := [], storefrontTools := .ok [⟨"search_catalog", "s"⟩],
          customerTools := .error "connection refused",
          turns := [.streamed [] ⟨"assistant", some "end_turn", [.text "ok"]⟩],
          callTool := fun _ _ => .thrown "unused",
          enrich := fun _ _ => ([], []) }).2 = .completed
    ∧ modelCallTools (handleChatSession
        { userMessage := "hi", conversationId := "c1", promptType := "standard",
          db0 := [], storefrontTools := .ok [⟨"search_catalog", "s"⟩],
          customerTools := .error "connection refused",
          turns := [.streamed [] ⟨"assistant", some "end_turn", [.text "ok"]⟩],
          callTool := fun _ _ => .thrown "unused",
          enrich := fun _ _ => ([], []) }).1
        = [[⟨"search_catalog", "s"⟩]]
    ∧ ([(⟨"search_catalog", "s"⟩ : Tool)] : List Tool) ≠ [] := by
  refine ⟨rfl, rfl, by simp⟩

/-- C6 (amended): a throwing tool-gateway connect is non-fatal — a warning
is recorded and the session proceeds exactly as it would with the tools
accumulated before the throw (empty when the storefront connect throws,
the storefront tools when the customer connect throws): same wire events,
same outcome; and discovery is attempted at most once per session, each
scope being connected to at most once in the whole trace. -/
theorem discovery_failure_tolerated :
    (∀ (env : SessionEnv) (e : String),
       env.storefrontTools = .error e →
       Action.warn e ∈ (handleChatSession env).1
       ∧ (∀ ts ∈ modelCallTools (handleChatSession env).1, ts = [])
       ∧ wireTrace env = wireTrace
           { env with storefrontTools := Except.ok [],
                      customerTools := Except.ok [] }
       ∧ (handleChatSession env).2 = (handleChatSession
           { env with storefrontTools := Except.ok [],
                      customerTools := Except.ok [] }).2)
    ∧ (∀ (env : SessionEnv) (ts : List Tool) (e : String),
       env.storefrontTools = .ok ts →
       env.customerTools = .error e →
       Action.warn e ∈ (handleChatSession env).1
       ∧ (∀ ts' ∈ modelCallTools (handleChatSession env).1, ts' = ts)
       ∧ wireTrace env
           = wireTrace { env with customerTools := Except.ok [] }
       ∧ (handleChatSession env).2
           = (handleChatSession { env with customerTools := Except.ok [] }).2)
    ∧ (∀ env : SessionEnv,
       (handleChatSession env).1.countP (isConnectTo "storefront") ≤ 1
       ∧ (handleChatSession env).1.countP (isConnectTo "customer") ≤ 1) := by
  refine ⟨?_, ?_, ?_⟩
  · intro env e hsf
    have hdisc : discovery env = ([.connect "storefront", .warn e], []) := by
      unfold discovery
      rw [hsf]
    have hdiscOk : discovery
        { env with storefrontTools := Except.ok [], customerTools := Except.ok [] }
        = ([.connect "storefront", .connect "customer"], []) := rfl
    have hloopeq : sessionLoop
        { env with storefrontTools := Except.ok [], customerTools := Except.ok [] }
        = sessionLoop env := by
      unfold sessionLoop sessionInit sessionDb1
      rw [hdisc, hdiscOk]
      rfl
    refine ⟨?_, ?_, ?_, ?_⟩
    · obtain ⟨rest, hF⟩ := session_trace_shape env
      rw [hF]
      refine List.mem_append_left _ ?_
      unfold sessionPre
      rw [hdisc]
      simp
    · intro ts hts
      have := session_modelCallTools env ts hts
      rw [hdisc] at this
      exact this
    · unfold wireTrace handleChatSession
      rw [hloopeq]
      cases hr : (sessionLoop env).2.2 <;>
        simp [sentEvents_append, sentEvents_pre]
    · unfold handleChatSession
      rw [hloopeq]
      cases hr : (sessionLoop env).2.2 <;> rfl
  · intro env ts e hsf hcust
    have hdisc : discovery env
        = ([.connect "storefront", .connect "customer", .warn e], ts) := by
      unfold discovery
      rw [hsf, hcust]
    have hdiscOk : discovery { env with customerTools := Except.ok [] }
        = ([.connect "storefront", .connect "customer"], ts ++ []) := by
      unfold discovery
      rw [show ({ env with customerTools := Except.ok [] } :
        SessionEnv).storefrontTools = Except.ok ts from hsf]
    have hloopeq : sessionLoop { env with customerTools := Except.ok [] }
        = sessionLoop env := by
      unfold sessionLoop sessionInit sessionDb1
      rw [hdisc, hdiscOk]
      rw [show (([Action.connect "storefront", Action.connect "customer"],
        ts ++ []) : List Action × List Tool).2 = ts from by simp]
      rfl
    refine ⟨?_, ?_, ?_, ?_⟩
    · obtain ⟨rest, hF⟩ := session_trace_shape env
      rw [hF]
      refine List.mem_append_left _ ?_
      unfold sessionPre
      rw [hdisc]
      simp
    · intro ts' hts
      have := session_modelCallTools env ts' hts
      rw [hdisc] at this
      exact this
    · unfold wireTrace handleChatSession
      rw [hloopeq]
      cases hr : (sessionLoop env).2.2 <;>
        simp [sentEvents_append, sentEvents_pre]
    · unfold handleChatSession
      rw [hloopeq]
      cases hr : (sessionLoop env).2.2 <;> rfl
  · intro env
    exact ⟨session_connect_le env _ (discovery_connect_counts env).1,
           session_connect_le env _ (discovery_connect_counts env).2⟩


/-- Witness for C6 (amended) at concrete sessions: a storefront-connect
throw leaves every model call without tools and records the warning; a
customer-connect throw records its warning; connects stay unique. -/
theorem discovery_failure_tolerated_witness :
    Action.warn "refused" ∈ (handleChatSession envSfFail).1
    ∧ (∀ ts ∈ modelCallTools (handleChatSession envSfFail).1, ts = [])
    ∧ Action.warn "down" ∈ (handleChatSession envCustFail).1
    ∧ (handleChatSession envCustFail).1.countP (isConnectTo "storefront") ≤ 1 :=
  ⟨(discovery_failure_tolerated.1 envSfFail "refused" rfl).1,
   (discovery_failure_tolerated.1 envSfFail "refused" rfl).2.1,
   (discovery_failure_tolerated.2.1 envCustFail [⟨"search_catalog", "s"⟩]
     "down" rfl rfl).1,
   (discovery_failure_tolerated.2.2 envCustFail).1⟩

/-! ## Failed-tool-dispatch claims -/


/-- Counterexample for C2: with tool error `"boom"`, the subsequent model
call receives a history consisting only of the user message and the
assistant tool-use message — the failure is not visible anywhere in the
history passed to the model (only the `tool_result` wire event carries
it). -/
theorem failed_tool_not_visible_in_history :
    modelCallHistories (handleChatSession
        (toolThrowEnv [] "c1" "hi" "t1" "search" "q" "boom" "assistant" "done")).1
      = [[⟨"user", .json (.jstr "hi")⟩],
         [⟨"user", .json (.jstr "hi")⟩,
          ⟨"assistant", .blocks [.toolUse "t1" "search" "q"]⟩]]
    ∧ wireTrace (toolThrowEnv [] "c1" "hi" "t1" "search" "q" "boom" "assistant" "done")
      = [.id "c1", .message_complete, .tool_result "t1" true "boom",
         .message_complete, .end_turn]
    ∧ ([⟨"user", .json (.jstr "hi")⟩,
        ⟨"assistant", .blocks [.toolUse "t1" "search" "q"]⟩].any
          (entryMentions "boom")) = false :=
  ⟨rfl, rfl, rfl⟩

/-- C2 (amended): a tool dispatch whose gateway call throws emits a
`tool_result` event whose payload is the error description keyed by the
originating request id, does not abort the session (it completes), and a
subsequent model call is made — but the failure is not appended to the
conversation history: the history passed to the next call extends the
previous one by the assistant message alone. -/
theorem failed_tool_dispatch_behavior (db0 : Db)
    (cid um tid tname tinput e r2 t2 : String) :
    wireTrace (toolThrowEnv db0 cid um tid tname tinput e r2 t2)
      = [.id cid, .message_complete, .tool_result tid true e,
         .message_complete, .end_turn]
    ∧ (handleChatSession (toolThrowEnv db0 cid um tid tname tinput e r2 t2)).2
      = .completed
    ∧ modelCallHistories (handleChatSession
        (toolThrowEnv db0 cid um tid tname tinput e r2 t2)).1
      = [loadHistory (saveMessage db0 cid "user" um) cid,
         loadHistory (saveMessage db0 cid "user" um) cid
           ++ [⟨"assistant", .blocks [.toolUse tid tname tinput]⟩]] :=
  ⟨rfl, rfl, rfl⟩
